import Mathlib

/-!
# A shallow embedding of the CanvasScraper content-retrieval core

This file embeds the pure/deterministic core of `CanvasScraper.py` in Lean 4
and proves properties about the embedding:

* `sanitizeL` embeds `CanvasScraper._sanitize_filename`,
* `isDownloadableLink` embeds `CanvasScraper._is_downloadable_link`,
* `downloadFile` embeds the control flow of `CanvasScraper._download_file`
  (browser navigation, the two transfer strategies, and the placeholder write),
* `getCourses` with the three strategy functions embeds
  `CanvasScraper.get_courses` and its fallback chain,
* `folderEvents` embeds the traversal order of `CanvasScraper._process_folder`,
* `runCourses` embeds the per-course loop of `CanvasScraper.run`.

Python strings are modelled as `List Char`; the on-disk file at a download
target is modelled by `Option Nat` (absent, or present with a byte size);
the browser/HTTP environment is supplied as explicit data so that the
otherwise effectful functions become pure.
-/

/-- Python strings are modelled as lists of characters. -/
abbrev Chars := List Char

/-- Python `s.replace(old, new)` for a single-character pattern: every
occurrence of `old` is replaced by `new`. -/
def replaceChar (old new : Char) (cs : Chars) : Chars :=
  cs.map (fun c => if c = old then new else c)

/-- The unsafe characters of `_sanitize_filename`
(`invalid_chars = ['<', '>', ':', '"', '/', '\\', '|', '?', '*']`). -/
def invalidChars : Chars := ['<', '>', ':', '"', '/', '\\', '|', '?', '*']

/-- The characters removed at both ends by `filename.strip('. ')`:
exactly the period and the space. -/
def isStripChar (c : Char) : Bool := c = '.' || c = ' '

/-- Python `s.strip(set)`: drop characters satisfying `p` from both ends
(here: right end first, then left end; the two orders agree). -/
def stripChars (p : Char → Bool) (cs : Chars) : Chars :=
  ((cs.reverse.dropWhile p).reverse).dropWhile p

/-- `CanvasScraper._sanitize_filename` (lines 1332-1346): replace each
character of `invalidChars` by an underscore (one `str.replace` per
character, folded in the source's order), strip leading/trailing periods
and spaces, and fall back to `"unnamed"` when the result is empty. -/
def sanitizeL (cs : Chars) : Chars :=
  if stripChars isStripChar (invalidChars.foldl (fun s c => replaceChar c '_' s) cs) = []
  then ("unnamed".data)
  else stripChars isStripChar (invalidChars.foldl (fun s c => replaceChar c '_' s) cs)

/-- `startsWithL pat s` is true when `pat` is an initial segment of `s`. -/
def startsWithL : Chars → Chars → Bool
  | [], _ => true
  | _ :: _, [] => false
  | p :: ps, c :: cs => (p = c) && startsWithL ps cs

/-- `endsWithL pat s` is true when `pat` is a final segment of `s`
(Python `s.endswith(pat)`). -/
def endsWithL (pat s : Chars) : Bool :=
  startsWithL pat.reverse s.reverse

/-- `afterSub pat s`: the remainder of `s` after the first occurrence of the
substring `pat`, or `none` when `pat` does not occur.  This models Python's
`s.split(pat)[1]` up to the next occurrence of `pat`; taking a subsequent
`.split(sep)[0]` agrees on both readings because `pat` begins with the
separators used in the source. -/
def afterSub (pat : Chars) : Chars → Option Chars
  | [] => if pat = [] then some [] else none
  | c :: rest =>
    if startsWithL pat (c :: rest) then some ((c :: rest).drop pat.length)
    else afterSub pat rest

/-- Python `pat in s` (substring containment). -/
def containsSub (pat s : Chars) : Bool :=
  (afterSub pat s).isSome

/-- Python `s.lower()` (the URLs and names involved are ASCII). -/
def toLowerL (cs : Chars) : Chars := cs.map Char.toLower

/-- The extension allow-list of `_is_downloadable_link` (lines 1123-1124). -/
def fileExtensions : List Chars :=
  [(".pdf".data), (".doc".data), (".docx".data), (".ppt".data), (".pptx".data),
   (".xls".data), (".xlsx".data), (".txt".data), (".zip".data),
   (".jpg".data), (".jpeg".data), (".png".data), (".gif".data),
   (".mp3".data), (".mp4".data), (".mov".data), (".avi".data)]

/-- `CanvasScraper._is_downloadable_link` (lines 1113-1130): an empty URL is
rejected; a URL containing `"/files/"` together with one of the literal
substrings `"/download"`, `"?download=1"`, `"?download_frd=1"` is accepted;
otherwise the lowercased URL must end with an allow-listed extension or
contain an allow-listed extension immediately followed by `'?'`. -/
def isDownloadableLink (url : Chars) : Bool :=
  if url = [] then false
  else if containsSub ("/files/".data) url &&
      (containsSub ("/download".data) url ||
        containsSub ("?download=1".data) url ||
        containsSub ("?download_frd=1".data) url) then true
  else
    fileExtensions.any (fun ext =>
      endsWithL ext (toLowerL url) || containsSub (ext ++ ("?".data)) (toLowerL url))

/-- The part of a URL before the first `'?'` (its path, for the URLs at hand). -/
def pathPart (url : Chars) : Chars := url.takeWhile (fun c => c ≠ '?')

/-- The part of a URL after the first `'?'` (its query string; empty when
there is no query). -/
def queryPart (url : Chars) : Chars :=
  ((url.dropWhile (fun c => c ≠ '?')).drop 1)

/-- Split a character list on a separator character. -/
def splitOnChar (sep : Char) : Chars → List Chars
  | [] => [[]]
  | c :: rest =>
    if c = sep then [] :: splitOnChar sep rest
    else
      match splitOnChar sep rest with
      | [] => [[c]]
      | h :: t => (c :: h) :: t

/-- Written from the words of claim C3 (not from the source): an explicit
download marker is a `"/download"` *path suffix*, or a `download=1` /
`download_frd=1` flag among the `&`-separated query parameters. -/
def specDownloadMarker (url : Chars) : Bool :=
  endsWithL ("/download".data) (pathPart url) ||
  (splitOnChar '&' (queryPart url)).any
    (fun p => decide (p = ("download=1".data)) || decide (p = ("download_frd=1".data)))

/-- Written from the words of claim C3 (not from the source): downloadable
exactly when the URL has a files segment together with an explicit download
marker, or its path / pre-query suffix matches the extension allow-list
case-insensitively. -/
def specIsDownloadable (url : Chars) : Bool :=
  (containsSub ("/files/".data) url && specDownloadMarker url) ||
  fileExtensions.any (fun ext => endsWithL ext (toLowerL (pathPart url)))

/-- The characterization of `isDownloadableLink` actually realized by the
source (the amended form of claim C3): substring-based marker tests and
whole-URL extension tests. -/
def downloadLinkChar (url : Chars) : Prop :=
  url ≠ [] ∧
  ((containsSub ("/files/".data) url = true ∧
      (containsSub ("/download".data) url = true ∨
        containsSub ("?download=1".data) url = true ∨
        containsSub ("?download_frd=1".data) url = true)) ∨
    ∃ ext ∈ fileExtensions,
      (endsWithL ext (toLowerL url) = true ∨
        containsSub (ext ++ ("?".data)) (toLowerL url) = true))

/-! ## The download fallback chain (`_download_file`, lines 1229-1300) -/

/-- Network actions performed by `_download_file`: a browser navigation
(`self.driver.get`) or a streamed HTTP transfer (`self.session.get`). -/
inductive NetEvent where
  | navigate (url : String)
  | httpGet (url : String)
deriving DecidableEq, Repr

/-- The environment of one download attempt, covering the control-flow
branches of `_download_file` after the skip check:

* `navRaise`: `self.driver.get(file_url)` raises;
* `buttonFound url s ok`: a download button was located (primary or
  alternative selector) with resolved target `url`; the streamed transfer
  answers HTTP status `s`; `ok` records whether saving the body completes
  without an exception;
* `noButton s ok`: both button waits timed out, so the direct transfer
  against the original URL is attempted, answering status `s` with save
  outcome `ok`. -/
inductive Attempt where
  | navRaise
  | buttonFound (downloadUrl : String) (status : Nat) (saveOk : Bool)
  | noButton (status : Nat) (saveOk : Bool)
deriving DecidableEq, Repr

/-- The observable outcome of `_download_file`: its boolean return value,
the state of the file at the target path afterwards (`none` = absent,
`some n` = present with `n` bytes), and the network actions performed. -/
structure FetchOutcome where
  success : Bool
  fsAfter : Option Nat
  events : List NetEvent
deriving DecidableEq, Repr

/-- `requests` `Response.raise_for_status` raises exactly for status codes
in `[400, 600)`. -/
def httpRaises (status : Nat) : Bool := decide (400 ≤ status ∧ status < 600)

/-- The skip-existing check (lines 1234-1238): skip only when the flag is
set, the file exists, and its size is strictly positive. -/
def skipHit (skipExisting : Bool) (existing : Option Nat) : Bool :=
  skipExisting &&
    (match existing with
      | some n => decide (0 < n)
      | none => false)

/-- `CanvasScraper._download_file` as a pure function of its environment.
`existing` is the file currently at the target path and `contentSize` the
size a completed transfer would produce.  Every exception raised inside the
body is caught by the `except` clause at lines 1288-1300, which writes a
zero-length placeholder (`open(file_path, "wb")`, truncating) and returns
`False`; the function is total, so no exception reaches the caller.  In the
no-button branch a non-200 status returns `False` directly (line 1273)
without touching the filesystem. -/
def downloadFile (skipExisting : Bool) (existing : Option Nat) (fileUrl : String)
    (att : Attempt) (contentSize : Nat) : FetchOutcome :=
  if skipHit skipExisting existing then
    { success := true, fsAfter := existing, events := [] }
  else
    match att with
    | Attempt.navRaise =>
      { success := false, fsAfter := some 0, events := [NetEvent.navigate fileUrl] }
    | Attempt.buttonFound downloadUrl status saveOk =>
      let evs := [NetEvent.navigate fileUrl, NetEvent.httpGet downloadUrl]
      if httpRaises status then
        { success := false, fsAfter := some 0, events := evs }
      else if saveOk then
        { success := true, fsAfter := some contentSize, events := evs }
      else
        { success := false, fsAfter := some 0, events := evs }
    | Attempt.noButton status saveOk =>
      let evs := [NetEvent.navigate fileUrl, NetEvent.httpGet fileUrl]
      if status = 200 then
        if saveOk then
          { success := true, fsAfter := some contentSize, events := evs }
        else
          { success := false, fsAfter := some 0, events := evs }
      else
        { success := false, fsAfter := existing, events := evs }

/-- The attempts during which `_download_file` raises an exception
internally (and therefore reaches the placeholder-writing handler):
a navigation failure, a `raise_for_status` error in the button strategy,
or an exception while saving the body in either strategy. -/
def attemptRaises : Attempt → Bool
  | Attempt.navRaise => true
  | Attempt.buttonFound _ status saveOk => httpRaises status || !saveOk
  | Attempt.noButton status saveOk => (decide (status = 200)) && !saveOk

/-! ## Course discovery (`get_courses` and its three strategies, lines 466-668) -/

/-- A discovered course: `id`, display name, URL (spec data model). -/
structure Course where
  id : Chars
  name : Chars
  url : Chars
deriving DecidableEq, Repr

/-- A rendered dashboard card: its header title text and its link URL. -/
structure Card where
  title : Chars
  href : Chars
deriving DecidableEq, Repr

/-- A rendered anchor element: its `href` and its visible text. -/
structure Anchor where
  href : Chars
  text : Chars
deriving DecidableEq, Repr

/-- Python `s.strip()` (no argument): strip whitespace at both ends. -/
def stripWs (cs : Chars) : Chars := stripChars Char.isWhitespace cs

/-- `url.split("/courses/")[1].split("/")[0]`: the id segment following the
first `"/courses/"` marker, or `none` when the marker is absent (in the
source, the `IndexError` of the absent case is caught and the element is
skipped). -/
def courseIdOf (url : Chars) : Option Chars :=
  (afterSub ("/courses/".data) url).map (fun rest => rest.takeWhile (fun c => c ≠ '/'))

/-- `_get_courses_from_dashboard` (lines 499-546): one course per card whose
link URL yields a parseable id; cards raising during extraction are skipped. -/
def coursesFromDashboard (cards : List Card) : List Course :=
  cards.filterMap (fun card =>
    (courseIdOf card.href).map (fun cid =>
      { id := cid, name := stripWs card.title, url := card.href }))

/-- `_get_courses_from_all_courses_table` (lines 548-610): skip the header
row; in each remaining row take the first anchor whose URL contains
`"/courses/"` (rows without one raise and are skipped) and extract name and
id from it. -/
def coursesFromTable (rows : List (List Anchor)) : List Course :=
  (rows.drop 1).filterMap (fun row =>
    (row.find? (fun a => containsSub ("/courses/".data) a.href)).bind (fun a =>
      if containsSub ("/courses/".data) a.href then
        (courseIdOf a.href).map (fun cid =>
          { id := cid, name := stripWs a.text, url := a.href })
      else none))

/-- The navigational link texts rejected by the list-view strategy. -/
def bannedCourseNames : List Chars :=
  [("all courses".data), ("dashboard".data), ("courses".data)]

/-- `_get_courses_from_list_view` (lines 612-668): scan every anchor whose
URL references a course path, rejecting aggregate URLs, non-numeric id
segments, empty texts and known navigational labels, deduplicating by id
while preserving first-occurrence order. -/
def coursesFromListView (links : List Anchor) : List Course :=
  links.foldl (fun acc a =>
    if containsSub ("/courses/all".data) a.href ||
        containsSub ("/courses/favorites".data) a.href ||
        containsSub ("/courses/search".data) a.href then acc
    else
      match afterSub ("/courses/".data) a.href with
      | none => acc
      | some rest =>
        let cid := rest.takeWhile (fun c => c ≠ '/')
        if (!cid.isEmpty) && cid.all Char.isDigit then
          let cname := stripWs a.text
          if cname.isEmpty || (bannedCourseNames.contains (toLowerL cname)) then acc
          else if acc.any (fun c => c.id = cid) then acc
          else acc ++ [{ id := cid, name := cname, url := a.href }]
        else acc) []

/-- `CanvasScraper.get_courses` (lines 466-497): dashboard cards first; if
that yields nothing, the all-courses table; if that also yields nothing,
the generic list view.  The first non-empty strategy result is returned
unchanged. -/
def getCourses (cards : List Card) (rows : List (List Anchor)) (links : List Anchor) :
    List Course :=
  if (coursesFromDashboard cards).isEmpty then
    if (coursesFromTable rows).isEmpty then coursesFromListView links
    else coursesFromTable rows
  else coursesFromDashboard cards

/-! ## Per-site local filenames (claim C9) -/

/-- The nine extensions of the `str.endswith` tuple used at the
extension-appending sites (lines 747, 845, 875, 900, 1044). -/
def nineExts : List Chars :=
  [(".pdf".data), (".doc".data), (".docx".data), (".ppt".data), (".pptx".data),
   (".xls".data), (".xlsx".data), (".txt".data), (".zip".data)]

/-- Python `s.endswith(tuple)`: true when `s` ends with any listed suffix. -/
def endsWithAny (exts : List Chars) (cs : Chars) : Bool :=
  exts.any (fun e => endsWithL e cs)

/-- The local filename computed at the module-item site
(`_process_course_modules`, lines 1042-1048; the homepage and
clickable-link sites share this code shape): sanitize, then append
`".pdf"` unless the name already ends with one of the nine document
extensions (a case-sensitive check). -/
def moduleLocalName (fileName : Chars) : Chars :=
  if endsWithAny nineExts (sanitizeL fileName) then sanitizeL fileName
  else sanitizeL fileName ++ (".pdf".data)

/-- The local filename computed at the folder-traversal site
(`_process_folder`, lines 1213-1222): sanitize only, with no extension
adjustment. -/
def folderLocalName (fileName : Chars) : Chars := sanitizeL fileName

/-! ## The per-course loop of `run` (lines 1368-1374) -/

/-- The course loop of `CanvasScraper.run` together with its top-level
`except` clause.  Each course carries a flag telling whether
`process_course` raises on it (e.g. a navigation failure).  The result is
the list of courses whose processing completed, and the boolean `run`
returns.  There is no `try` inside the loop, so a raising course ends the
loop; the top-level handler catches the exception and returns `False`. -/
def runCourses : List (String × Bool) → List String × Bool
  | [] => ([], true)
  | (cname, raises) :: rest =>
    if raises then ([], false)
    else
      let r := runCourses rest
      (cname :: r.1, r.2)

/-! ## The folder traversal engine (`_process_folder`, lines 1132-1227) -/

/-- One entry of a rendered folder listing: a file row or a subfolder row
(distinguished in the source by the `ef-item-folder` structural class),
each with its display name and URL; a subfolder carries the listing found
inside it. -/
inductive FolderEntry where
  | file (ename eurl : String)
  | subfolder (ename eurl : String) (items : List FolderEntry)

/-- Observable actions of the traversal: a browser navigation to a folder
URL (each navigation is followed by re-rendering the listing), or the
invocation of the download chain for a file URL against a local path. -/
inductive TraceEvent where
  | navTo (url : String)
  | downloadTo (eurl localPath : String)
deriving DecidableEq, Repr

/-- `sanitizeL` lifted to `String` (helper for local paths). -/
def sanitizeS (s : String) : String := ⟨sanitizeL s.data⟩

/-- `os.path.join(dir, _sanitize_filename(name))`. -/
def childPath (dir ename : String) : String := dir ++ "/" ++ sanitizeS ename

/-- The second loop of `_process_folder`: download each file row of the
listing, in listing order, to `dir/sanitize(name)`. -/
def filePhase (dir : String) : List FolderEntry → List TraceEvent
  | [] => []
  | FolderEntry.file ename eurl :: rest =>
    TraceEvent.downloadTo eurl (childPath dir ename) :: filePhase dir rest
  | FolderEntry.subfolder _ _ _ :: rest => filePhase dir rest

mutual

/-- `CanvasScraper._process_folder`: navigate to the folder's URL and render
its listing, process every subfolder (first loop, lines 1157-1201), then
download every file of the listing (second loop, lines 1205-1227). -/
def folderEvents (dir url : String) (items : List FolderEntry) : List TraceEvent :=
  TraceEvent.navTo url :: (subfolderPhase dir url items ++ filePhase dir items)

/-- The first loop of `_process_folder`: for each subfolder row in listing
order, create the local directory, descend recursively, then navigate back
to the parent folder's URL and re-render the listing. -/
def subfolderPhase (dir url : String) : List FolderEntry → List TraceEvent
  | [] => []
  | FolderEntry.file _ _ :: rest => subfolderPhase dir url rest
  | FolderEntry.subfolder ename eurl its :: rest =>
    (folderEvents (childPath dir ename) eurl its ++ [TraceEvent.navTo url]) ++
      subfolderPhase dir url rest

end

/-- The subfolder rows of a listing, in listing order
(name, URL, inner listing). -/
def subfoldersOf (items : List FolderEntry) : List (String × String × List FolderEntry) :=
  items.filterMap (fun e =>
    match e with
    | FolderEntry.subfolder n u its => some (n, u, its)
    | FolderEntry.file _ _ => none)

/-- The file rows of a listing, in listing order (name, URL). -/
def filesOf (items : List FolderEntry) : List (String × String) :=
  items.filterMap (fun e =>
    match e with
    | FolderEntry.file n u => some (n, u)
    | FolderEntry.subfolder _ _ _ => none)

/-- A fixture all-courses table for the discovery-order witness: a header
row followed by three course rows (the spec test scenario in which the
dashboard strategy yields nothing and the table strategy yields three). -/
def tableFixture : List (List Anchor) :=
  [[{ href := ("/x".data), text := ("Name".data) }],
   [{ href := ("/courses/101".data), text := ("Alpha".data) }],
   [{ href := ("/courses/102".data), text := ("Beta".data) }],
   [{ href := ("/courses/103".data), text := ("Gamma".data) }]]

/-! ## General lemmas about the string helpers -/

theorem head?_dropWhile_false {p : Char → Bool} :
    ∀ {l : Chars} {c : Char}, (l.dropWhile p).head? = some c → p c = false := by
  intro l
  induction l with
  | nil => intro c h; simp [List.dropWhile] at h
  | cons a t ih =>
    intro c h
    by_cases ha : p a
    · rw [List.dropWhile_cons_of_pos ha] at h
      exact ih h
    · rw [List.dropWhile_cons_of_neg ha] at h
      simp only [List.head?_cons, Option.some.injEq] at h
      subst h
      simpa using ha

theorem getLast?_dropWhile {p : Char → Bool} :
    ∀ (l : Chars), l.dropWhile p ≠ [] → (l.dropWhile p).getLast? = l.getLast? := by
  intro l
  induction l with
  | nil => intro h; simp [List.dropWhile] at h
  | cons a t ih =>
    intro hne
    by_cases ha : p a
    · rw [List.dropWhile_cons_of_pos ha] at hne ⊢
      rw [ih hne]
      have ht : t ≠ [] := by
        intro h
        subst h
        simp [List.dropWhile] at hne
      cases t with
      | nil => exact absurd rfl ht
      | cons b u => simp [List.getLast?_cons_cons]
    · rw [List.dropWhile_cons_of_neg ha]

theorem dropWhile_eq_self_of_none {p : Char → Bool} :
    ∀ {l : Chars}, (∀ c ∈ l, p c = false) → l.dropWhile p = l := by
  intro l h
  cases l with
  | nil => rfl
  | cons a t =>
    have := h a (by simp)
    rw [List.dropWhile_cons_of_neg (by simp [this])]

theorem mem_stripChars {p : Char → Bool} {cs : Chars} {x : Char}
    (hx : x ∈ stripChars p cs) : x ∈ cs := by
  unfold stripChars at hx
  have h1 := (List.dropWhile_sublist p).subset hx
  rw [List.mem_reverse] at h1
  have h2 := (List.dropWhile_sublist p).subset h1
  rwa [List.mem_reverse] at h2

theorem head?_stripChars_false {p : Char → Bool} {cs : Chars} {c : Char}
    (h : (stripChars p cs).head? = some c) : p c = false := by
  unfold stripChars at h
  exact head?_dropWhile_false h

theorem getLast?_stripChars_false {p : Char → Bool} {cs : Chars} {c : Char}
    (h : (stripChars p cs).getLast? = some c) : p c = false := by
  unfold stripChars at h
  have hne : List.dropWhile p ((cs.reverse.dropWhile p).reverse) ≠ [] := by
    intro hnil
    rw [hnil] at h
    simp at h
  rw [getLast?_dropWhile _ hne, List.getLast?_reverse] at h
  exact head?_dropWhile_false h

theorem stripChars_eq_nil_of_all {p : Char → Bool} {cs : Chars}
    (h : ∀ c ∈ cs, p c = true) : stripChars p cs = [] := by
  unfold stripChars
  have h1 : cs.reverse.dropWhile p = [] :=
    List.dropWhile_eq_nil_iff.mpr (fun x hx => h x (List.mem_reverse.mp hx))
  rw [h1]
  rfl

theorem stripChars_eq_self_of_none {p : Char → Bool} {cs : Chars}
    (h : ∀ c ∈ cs, p c = false) : stripChars p cs = cs := by
  unfold stripChars
  rw [dropWhile_eq_self_of_none (fun c hc => h c (List.mem_reverse.mp hc)),
    List.reverse_reverse,
    dropWhile_eq_self_of_none h]

theorem foldl_replaceChar (l : Chars) : ∀ (cs : Chars),
    l.foldl (fun s c => replaceChar c '_' s) cs =
      cs.map (fun x => if x ∈ l then '_' else x) := by
  induction l with
  | nil =>
    intro cs
    simp
  | cons a t ih =>
    intro cs
    rw [List.foldl_cons, ih, replaceChar, List.map_map]
    apply List.map_congr_left
    intro x _
    by_cases hxa : x = a
    · subst hxa
      simp
    · simp [Function.comp, hxa, List.mem_cons]

/-! ## Claim C7 (filename sanitizer) -/

/-- Claim C7 counterexample: the claim says leading/trailing *whitespace*
is trimmed, but `filename.strip('. ')` strips only periods and spaces, so
an input with a trailing tab keeps it: `sanitize("a\t") = "a\t"`, whose
last character is a whitespace character. -/
theorem sanitize_keeps_tab_whitespace :
    sanitizeL ("a\t".data) = ("a\t".data) ∧
    (sanitizeL ("a\t".data)).getLast? = some '\t' ∧
    ('\t').isWhitespace = true := by
  decide

/-- Claim C7, amended (whitespace → spaces): `sanitize` is total; every
character of the fixed unsafe set is replaced by an underscore so the
result never contains an unsafe-set character; leading/trailing *spaces*
and periods are trimmed (the result is nonempty and neither starts nor
ends with a period or space); and
`sanitize("A/B:C*?.pdf") = "A_B_C__.pdf"`. -/
theorem sanitize_total_safe (cs : Chars) :
    (∀ x ∈ sanitizeL cs, x ∉ invalidChars) ∧
    sanitizeL cs ≠ [] ∧
    (∀ c, (sanitizeL cs).head? = some c → isStripChar c = false) ∧
    (∀ c, (sanitizeL cs).getLast? = some c → isStripChar c = false) ∧
    sanitizeL ("A/B:C*?.pdf".data) = ("A_B_C__.pdf".data) := by
  unfold sanitizeL
  by_cases h :
      stripChars isStripChar (invalidChars.foldl (fun s c => replaceChar c '_' s) cs) = []
  · rw [if_pos h]
    refine ⟨by decide, by decide, ?_, ?_, by decide⟩
    · intro c hc
      simp only [show ("unnamed".data).head? = some 'u' from rfl, Option.some.injEq] at hc
      subst hc
      decide
    · intro c hc
      simp only [show ("unnamed".data).getLast? = some 'd' from rfl, Option.some.injEq] at hc
      subst hc
      decide
  · rw [if_neg h]
    refine ⟨?_, h, ?_, ?_, by decide⟩
    · intro x hx
      have hmem := mem_stripChars hx
      rw [foldl_replaceChar] at hmem
      obtain ⟨y, _, hy⟩ := List.mem_map.mp hmem
      by_cases hyi : y ∈ invalidChars
      · rw [if_pos hyi] at hy
        subst hy
        decide
      · rw [if_neg hyi] at hy
        subst hy
        exact hyi
    · intro c hc
      exact head?_stripChars_false hc
    · intro c hc
      exact getLast?_stripChars_false hc

/-- Witness for `sanitize_total_safe` at the input `"A/B"`. -/
theorem sanitize_total_safe_wit :
    ('_' ∉ invalidChars) ∧ isStripChar 'A' = false :=
  ⟨(sanitize_total_safe ("A/B".data)).1 '_' (by decide),
   (sanitize_total_safe ("A/B".data)).2.2.1 'A' (by decide)⟩

/-! ## Claim C8 (placeholder result of the sanitizer) -/

/-- Claim C8 counterexample: an input consisting entirely of unsafe-set
characters does **not** yield `"unnamed"`: each unsafe character becomes an
underscore, underscores are not stripped, so `sanitize("/") = "_"`. -/
theorem sanitize_all_unsafe_gives_underscores :
    (∀ c ∈ ("/".data), c ∈ invalidChars) ∧
    sanitizeL ("/".data) = ("_".data) ∧
    sanitizeL ("/".data) ≠ ("unnamed".data) := by
  decide

/-- Claim C8, amended: `sanitize` returns the placeholder `"unnamed"` for
every input consisting entirely of periods and spaces (in particular the
empty input); an all-unsafe-set input instead yields a same-length string
of underscores. -/
theorem sanitize_placeholder_cases (cs : Chars) :
    ((∀ c ∈ cs, isStripChar c = true) → sanitizeL cs = ("unnamed".data)) ∧
    (cs ≠ [] → (∀ c ∈ cs, c ∈ invalidChars) →
      sanitizeL cs = List.replicate cs.length '_') := by
  constructor
  · intro hall
    have hrep : invalidChars.foldl (fun s c => replaceChar c '_' s) cs = cs := by
      rw [foldl_replaceChar]
      calc cs.map (fun x => if x ∈ invalidChars then '_' else x)
          = cs.map (fun x => x) := by
            apply List.map_congr_left
            intro x hx
            have hsx := hall x hx
            have hxinv : x ∉ invalidChars := by
              simp only [isStripChar, Bool.or_eq_true, decide_eq_true_eq] at hsx
              rcases hsx with h1 | h1 <;> subst h1 <;> decide
            rw [if_neg hxinv]
        _ = cs := List.map_id' cs
    unfold sanitizeL
    rw [hrep, stripChars_eq_nil_of_all hall]
    rfl
  · intro hne hall
    have hrep : invalidChars.foldl (fun s c => replaceChar c '_' s) cs =
        List.replicate cs.length '_' := by
      rw [foldl_replaceChar]
      rw [List.eq_replicate_iff]
      refine ⟨by simp, ?_⟩
      intro b hb
      obtain ⟨y, hy, hb'⟩ := List.mem_map.mp hb
      rw [if_pos (hall y hy)] at hb'
      exact hb'.symm
    have hstr : stripChars isStripChar (List.replicate cs.length '_') =
        List.replicate cs.length '_' := by
      apply stripChars_eq_self_of_none
      intro c hc
      rw [List.eq_of_mem_replicate hc]
      decide
    have hrnil : List.replicate cs.length '_' ≠ [] := by
      intro h
      rw [List.replicate_eq_nil_iff] at h
      exact hne (List.length_eq_zero.mp h)
    unfold sanitizeL
    rw [hrep, hstr, if_neg hrnil]

/-- Witness for `sanitize_placeholder_cases`: the all-period-and-space input
`". ."` yields `"unnamed"`, the all-unsafe input `"//"` yields `"__"`. -/
theorem sanitize_placeholder_cases_wit :
    sanitizeL ((". .".data)) = ("unnamed".data) ∧
    sanitizeL ("//".data) = List.replicate 2 '_' :=
  ⟨(sanitize_placeholder_cases (". .".data)).1 (by decide),
   (sanitize_placeholder_cases ("//".data)).2 (by decide) (by decide)⟩

/-! ## Claim C1 (idempotent skip via the on-disk ledger) -/

/-- Claim C1: with `skip_existing` set and a file of positive size at the
target path, `_download_file` returns `True` immediately, performs no
network action and leaves the filesystem entry unchanged; with a
zero-length placeholder at the target path the skip branch is not taken —
the call behaves exactly as with `skip_existing` disabled and performs
network activity. -/
theorem download_skip_ledger (fileUrl : String) (att : Attempt)
    (contentSize n : Nat) (hn : 0 < n) :
    downloadFile true (some n) fileUrl att contentSize =
      { success := true, fsAfter := some n, events := [] } ∧
    downloadFile true (some 0) fileUrl att contentSize =
      downloadFile false (some 0) fileUrl att contentSize ∧
    (downloadFile true (some 0) fileUrl att contentSize).events ≠ [] := by
  refine ⟨?_, ?_, ?_⟩
  · unfold downloadFile
    rw [if_pos]
    simp [skipHit, hn]
  · unfold downloadFile
    rw [if_neg (by simp [skipHit]), if_neg (by simp [skipHit])]
  · unfold downloadFile
    rw [if_neg (by simp [skipHit])]
    cases att with
    | navRaise => simp
    | buttonFound downloadUrl status saveOk =>
      by_cases hs : httpRaises status = true
      · simp [hs]
      · by_cases hok : saveOk <;> simp [hs, hok]
    | noButton status saveOk =>
      by_cases hs : status = 200
      · by_cases hok : saveOk <;> simp [hs, hok]
      · simp [hs]

/-- Witness for `download_skip_ledger`: a 3-byte file is skipped untouched. -/
theorem download_skip_ledger_wit :
    downloadFile true (some 3) "u" Attempt.navRaise 0 =
      { success := true, fsAfter := some 3, events := [] } :=
  (download_skip_ledger "u" Attempt.navRaise 0 3 (by decide)).1

/-! ## Claim C2 (failure ⇒ placeholder write) -/

/-- Claim C2 counterexample: when both button lookups time out and the
direct transfer answers a non-success status (HTTP 404), `_download_file`
returns `False` (line 1273) **without** writing the zero-length
placeholder — the target path stays absent, contradicting the claim that
every both-strategies-fail attempt leaves a zero-length file. -/
theorem download_404_no_placeholder :
    (downloadFile false none "u" (Attempt.noButton 404 true) 5).success = false ∧
    (downloadFile false none "u" (Attempt.noButton 404 true) 5).fsAfter ≠ some 0 ∧
    (downloadFile false none "u" (Attempt.noButton 404 true) 5).fsAfter = none := by
  decide

/-- Claim C2, amended: `_download_file` never propagates an exception (the
embedding is total and every branch below covers the caught-exception
handler), and on failure behaves as follows: a navigation exception, an
HTTP error status in the button strategy (`raise_for_status`), or an
exception while saving in either strategy each write a zero-length
placeholder and return `False`; but a non-200 status in the no-button
direct strategy returns `False` leaving the filesystem entry unchanged —
no placeholder is written on that path. -/
theorem download_failure_modes (existing : Option Nat) (fileUrl downloadUrl : String)
    (status contentSize : Nat) (saveOk : Bool) :
    downloadFile false existing fileUrl Attempt.navRaise contentSize =
      { success := false, fsAfter := some 0, events := [NetEvent.navigate fileUrl] } ∧
    (httpRaises status = true →
      downloadFile false existing fileUrl
          (Attempt.buttonFound downloadUrl status saveOk) contentSize =
        { success := false, fsAfter := some 0,
          events := [NetEvent.navigate fileUrl, NetEvent.httpGet downloadUrl] }) ∧
    (httpRaises status = false → saveOk = false →
      downloadFile false existing fileUrl
          (Attempt.buttonFound downloadUrl status saveOk) contentSize =
        { success := false, fsAfter := some 0,
          events := [NetEvent.navigate fileUrl, NetEvent.httpGet downloadUrl] }) ∧
    (status ≠ 200 →
      downloadFile false existing fileUrl (Attempt.noButton status saveOk) contentSize =
        { success := false, fsAfter := existing,
          events := [NetEvent.navigate fileUrl, NetEvent.httpGet fileUrl] }) ∧
    downloadFile false existing fileUrl (Attempt.noButton 200 false) contentSize =
      { success := false, fsAfter := some 0,
        events := [NetEvent.navigate fileUrl, NetEvent.httpGet fileUrl] } := by
  refine ⟨?_, ?_, ?_, ?_, ?_⟩
  · unfold downloadFile
    rw [if_neg (by simp [skipHit])]
  · intro hs
    unfold downloadFile
    rw [if_neg (by simp [skipHit])]
    simp [hs]
  · intro hs hok
    unfold downloadFile
    rw [if_neg (by simp [skipHit])]
    simp [hs, hok]
  · intro hs
    unfold downloadFile
    rw [if_neg (by simp [skipHit])]
    simp [hs]
  · unfold downloadFile
    rw [if_neg (by simp [skipHit])]
    simp

/-- Witness for `download_failure_modes`: a 404 in the button strategy
(where `raise_for_status` raises) truncates to a placeholder. -/
theorem download_failure_modes_wit :
    downloadFile false (some 7) "u" (Attempt.buttonFound "d" 404 true) 5 =
      { success := false, fsAfter := some 0,
        events := [NetEvent.navigate "u", NetEvent.httpGet "d"] } :=
  (download_failure_modes (some 7) "u" "d" 404 5 true).2.1 (by decide)

/-! ## Claim C10 (placeholder write truncates pre-existing content) -/

/-- Claim C10: when the skip branch is not taken (`skip_existing` disabled,
or a zero-length file at the target) and the attempt fails with an
exception, the placeholder write (`open(file_path, "wb")`) truncates the
target to zero bytes — pre-existing content of any size `n` is destroyed. -/
theorem download_truncates_existing (n : Nat) (fileUrl : String) (att : Attempt)
    (contentSize : Nat) (hraise : attemptRaises att = true) :
    (downloadFile false (some n) fileUrl att contentSize).fsAfter = some 0 ∧
    (downloadFile true (some 0) fileUrl att contentSize).fsAfter = some 0 := by
  have key : ∀ sk ex, skipHit sk ex = false →
      (downloadFile sk ex fileUrl att contentSize).fsAfter = some 0 := by
    intro sk ex hsk
    unfold downloadFile
    rw [if_neg (by simp [hsk])]
    cases att with
    | navRaise => rfl
    | buttonFound downloadUrl status saveOk =>
      simp only [attemptRaises, Bool.or_eq_true, Bool.not_eq_true'] at hraise
      rcases hraise with hs | hok
      · simp [hs]
      · subst hok
        by_cases hs : httpRaises status = true <;> simp [hs]
    | noButton status saveOk =>
      simp only [attemptRaises, Bool.and_eq_true, decide_eq_true_eq,
        Bool.not_eq_true'] at hraise
      obtain ⟨hs, hok⟩ := hraise
      subst hs
      subst hok
      simp
  exact ⟨key false (some n) (by simp [skipHit]), key true (some 0) (by simp [skipHit])⟩

/-- Witness for `download_truncates_existing`: a 5-byte file is truncated
to zero bytes by a failed re-download attempt. -/
theorem download_truncates_existing_wit :
    (downloadFile false (some 5) "u" Attempt.navRaise 0).fsAfter = some 0 :=
  (download_truncates_existing 5 "u" Attempt.navRaise 0 (by decide)).1

/-! ## Claim C3 (link classifier) -/

/-- Claim C3 counterexample: the source tests `"/download"` as a plain
substring, so `"/files/1/downloads"` — which has no `"/download"` *path
suffix*, no download query flag and no allow-listed extension — is
classified downloadable by the code while the claim's characterization
rejects it. -/
theorem downloads_substring_mismatch :
    isDownloadableLink ("/files/1/downloads".data) = true ∧
    specIsDownloadable ("/files/1/downloads".data) = false := by
  decide

/-- Claim C3, amended: `_is_downloadable_link` is a pure function of the
URL string returning true exactly when the URL is nonempty and either
contains `"/files/"` together with one of the literal substrings
`"/download"`, `"?download=1"`, `"?download_frd=1"`, or its lowercased
text ends with an allow-listed extension or contains an allow-listed
extension immediately followed by `'?'`. -/
theorem isDownloadableLink_iff (url : Chars) :
    isDownloadableLink url = true ↔ downloadLinkChar url := by
  unfold isDownloadableLink downloadLinkChar
  by_cases hnil : url = []
  · simp [hnil]
  · rw [if_neg hnil]
    by_cases hfiles : (containsSub ("/files/".data) url &&
        (containsSub ("/download".data) url ||
          containsSub ("?download=1".data) url ||
          containsSub ("?download_frd=1".data) url)) = true
    · rw [if_pos hfiles]
      simp only [Bool.and_eq_true, Bool.or_eq_true] at hfiles
      constructor
      · intro _
        refine ⟨hnil, Or.inl ⟨hfiles.1, ?_⟩⟩
        rcases hfiles.2 with (h | h) | h
        · exact Or.inl h
        · exact Or.inr (Or.inl h)
        · exact Or.inr (Or.inr h)
      · intro _
        rfl
    · rw [if_neg hfiles]
      simp only [Bool.and_eq_true, Bool.or_eq_true] at hfiles
      constructor
      · intro hany
        rw [List.any_eq_true] at hany
        obtain ⟨ext, hext, hcond⟩ := hany
        rw [Bool.or_eq_true] at hcond
        exact ⟨hnil, Or.inr ⟨ext, hext, hcond⟩⟩
      · rintro ⟨-, hcase⟩
        rcases hcase with hmark | ⟨ext, hext, hcond⟩
        · apply absurd _ hfiles
          refine ⟨hmark.1, ?_⟩
          rcases hmark.2 with h | h | h
          · exact Or.inl (Or.inl h)
          · exact Or.inl (Or.inr h)
          · exact Or.inr h
        · rw [List.any_eq_true]
          refine ⟨ext, hext, ?_⟩
          rw [Bool.or_eq_true]
          exact hcond

/-! ## Claim C5 (course discovery fallback order) -/

/-- Claim C5: `get_courses` tries dashboard cards, then the all-courses
table, then the generic list view, in strict order, short-circuiting on
the first strategy with a non-empty result and returning that strategy's
course list unchanged (discovery order, no sorting). -/
theorem getCourses_fallback_order (cards : List Card) (rows : List (List Anchor))
    (links : List Anchor) :
    (coursesFromDashboard cards ≠ [] →
      getCourses cards rows links = coursesFromDashboard cards) ∧
    (coursesFromDashboard cards = [] → coursesFromTable rows ≠ [] →
      getCourses cards rows links = coursesFromTable rows) ∧
    (coursesFromDashboard cards = [] → coursesFromTable rows = [] →
      getCourses cards rows links = coursesFromListView links) := by
  unfold getCourses
  refine ⟨?_, ?_, ?_⟩
  · intro hd
    rw [if_neg (by simp [List.isEmpty_iff, hd])]
  · intro hd ht
    rw [if_pos (by simp [List.isEmpty_iff, hd]),
      if_neg (by simp [List.isEmpty_iff, ht])]
  · intro hd ht
    rw [if_pos (by simp [List.isEmpty_iff, hd]),
      if_pos (by simp [List.isEmpty_iff, ht])]

/-- Witness for `getCourses_fallback_order`: with no dashboard cards and
the three-course table fixture, exactly the three table courses are
returned, in table order. -/
theorem getCourses_fallback_order_wit :
    getCourses [] tableFixture [] =
      [{ id := ("101".data), name := ("Alpha".data), url := ("/courses/101".data) },
       { id := ("102".data), name := ("Beta".data), url := ("/courses/102".data) },
       { id := ("103".data), name := ("Gamma".data), url := ("/courses/103".data) }] := by
  have h := (getCourses_fallback_order [] tableFixture []).2.1 (by decide) (by decide)
  rw [h]
  decide

/-! ## Claim C4 (course-level failure containment) -/

/-- Claim C4 counterexample: with two discovered courses where processing
the first raises, the run aborts (returns `False`) and the second course
is **not** processed — the loop in `run` has no per-course exception
handler, so the failure escapes the course boundary. -/
theorem run_abort_counterexample :
    (runCourses [("A", true), ("B", false)]).2 = false ∧
    "B" ∉ (runCourses [("A", true), ("B", false)]).1 := by
  decide

/-- Claim C4, amended: an exception raised while processing a course
propagates out of the course loop to `run`'s top-level handler: every
course before the raising one is processed, the raising one aborts the
loop, no later course is processed, and `run` reports failure. -/
theorem run_stops_at_failing_course (pre : List (String × Bool)) (c : String)
    (rest : List (String × Bool)) (hpre : ∀ x ∈ pre, x.2 = false) :
    runCourses (pre ++ (c, true) :: rest) = (pre.map Prod.fst, false) := by
  induction pre with
  | nil => simp [runCourses]
  | cons hd tl ih =>
    obtain ⟨hname, hflag⟩ := hd
    have hh : hflag = false := hpre (hname, hflag) (by simp)
    subst hh
    have ih' := ih (fun x hx => hpre x (List.mem_cons_of_mem _ hx))
    simp [runCourses, ih']

/-- Witness for `run_stops_at_failing_course`: course A completes, course C
raises, course D is never processed, and the run reports failure. -/
theorem run_stops_at_failing_course_wit :
    runCourses [("A", false), ("C", true), ("D", false)] = (["A"], false) := by
  simpa using run_stops_at_failing_course [("A", false)] "C" [("D", false)] (by decide)

/-! ## Claim C9 (default extension per download site) -/

/-- Claim C9 counterexample: the folder-traversal site downloads to the
sanitized name with **no** extension adjustment — `"notes"` matches no
allow-listed extension yet nothing is appended; moreover the appending
sites use a nine-extension tuple, not the single allow-list: `.jpg` is
allow-listed but `"photo.jpg"` still receives `".pdf"` there. -/
theorem folder_site_no_default_ext :
    folderLocalName ("notes".data) = ("notes".data) ∧
    folderLocalName ("notes".data) ≠ ("notes.pdf".data) ∧
    (fileExtensions.all (fun e => !(endsWithL e ("notes".data)))) = true ∧
    moduleLocalName ("photo.jpg".data) = ("photo.jpg.pdf".data) ∧
    (".jpg".data) ∈ fileExtensions := by
  decide

/-- Claim C9, amended: at the module/homepage/clickable-link sites a
sanitized name not ending in one of the nine document extensions
(`.pdf .doc .docx .ppt .pptx .xls .xlsx .txt .zip`, checked
case-sensitively) receives `".pdf"`, one already ending in them is left
unchanged; the folder-traversal site uses the sanitized name as-is. -/
theorem local_name_sites (fileName : Chars) :
    (endsWithAny nineExts (sanitizeL fileName) = false →
      moduleLocalName fileName = sanitizeL fileName ++ (".pdf".data)) ∧
    (endsWithAny nineExts (sanitizeL fileName) = true →
      moduleLocalName fileName = sanitizeL fileName) ∧
    folderLocalName fileName = sanitizeL fileName := by
  refine ⟨?_, ?_, rfl⟩
  · intro h
    unfold moduleLocalName
    rw [if_neg (by simp [h])]
  · intro h
    unfold moduleLocalName
    rw [if_pos h]

/-- Witness for `local_name_sites`: `"report"` gets the default extension
at the module site. -/
theorem local_name_sites_wit :
    moduleLocalName ("report".data) = ("report.pdf".data) := by
  have h := (local_name_sites ("report".data)).1 (by decide)
  rw [h]
  decide

/-! ## Claim C6 (subfolders before files in every folder visit) -/

theorem subfolderPhase_eq (dir url : String) : ∀ (items : List FolderEntry),
    subfolderPhase dir url items =
      (subfoldersOf items).flatMap (fun sf =>
        folderEvents (childPath dir sf.1) sf.2.1 sf.2.2 ++ [TraceEvent.navTo url]) := by
  intro items
  induction items with
  | nil => simp [subfolderPhase, subfoldersOf]
  | cons e rest ih =>
    cases e with
    | file n u =>
      rw [show subfoldersOf (FolderEntry.file n u :: rest) = subfoldersOf rest from by
        simp [subfoldersOf]]
      rw [← ih]
      simp [subfolderPhase]
    | subfolder n u its =>
      rw [show subfoldersOf (FolderEntry.subfolder n u its :: rest) =
          (n, u, its) :: subfoldersOf rest from by simp [subfoldersOf]]
      rw [List.flatMap_cons, ← ih]
      simp [subfolderPhase]

theorem filePhase_eq (dir : String) : ∀ (items : List FolderEntry),
    filePhase dir items =
      (filesOf items).map (fun f => TraceEvent.downloadTo f.2 (childPath dir f.1)) := by
  intro items
  induction items with
  | nil => simp [filePhase, filesOf]
  | cons e rest ih =>
    cases e with
    | file n u =>
      rw [show filesOf (FolderEntry.file n u :: rest) = (n, u) :: filesOf rest from by
        simp [filesOf]]
      rw [List.map_cons, ← ih]
      simp [filePhase]
    | subfolder n u its =>
      rw [show filesOf (FolderEntry.subfolder n u its :: rest) = filesOf rest from by
        simp [filesOf]]
      rw [← ih]
      simp [filePhase]

/-- Claim C6: every folder visit of `_process_folder` first navigates to
the folder and renders its listing, then processes **all** subfolder rows
— each fully and recursively, depth-first, in listing order, each descent
followed by a navigation back to the parent folder's URL that re-renders
the listing — and only after the entire subfolder phase downloads the
folder's file rows, in listing order. -/
theorem folder_traversal_order (dir url : String) (items : List FolderEntry) :
    folderEvents dir url items =
      TraceEvent.navTo url ::
        (((subfoldersOf items).flatMap (fun sf =>
            folderEvents (childPath dir sf.1) sf.2.1 sf.2.2 ++ [TraceEvent.navTo url])) ++
          (filesOf items).map (fun f => TraceEvent.downloadTo f.2 (childPath dir f.1))) := by
  rw [folderEvents, subfolderPhase_eq, filePhase_eq]
